import Mathlib

/-!
Shallow embedding of the bookwyrm activitypub serializer core
(src/bookwyrm/activitypub/base_activity.py and src/bookwyrm/models/status.py).

Python values flowing through the serializer are modelled by `PyVal`:
JSON-ish data plus the two sentinels the code tests for with `is`,
namely `None` and `dataclasses.MISSING`.  Python dicts keyed by strings
are modelled as association lists with first-occurrence overwrite
(Python dict keys are unique, so the two agree on every state the code
builds).
-/

namespace BookWyrm

/-- A Python value as seen by the serializer: `None`, the
`dataclasses.MISSING` sentinel, strings, integers, booleans and lists. -/
inductive PyVal where
  | pnone
  | pmissing
  | pstr (s : String)
  | pint (n : Int)
  | pbool (b : Bool)
  | plist (xs : List PyVal)
deriving Repr

/-- A Python dict keyed by strings. -/
abbrev PyDict := List (String × PyVal)

/-- Dict read: value of key `k` in `d`, if present. -/
def dlookup : PyDict → String → Option PyVal
  | [], _ => none
  | (k₂, v) :: rest, k => if k₂ = k then some v else dlookup rest k

/-- Dict write, Python semantics: overwrite an existing key in place,
otherwise append at the end. -/
def dictSet : PyDict → String → PyVal → PyDict
  | [], k, v => [(k, v)]
  | (k₂, v₂) :: rest, k, v =>
    if k₂ = k then (k, v) :: rest else (k₂, v₂) :: dictSet rest k v

/-- Keys of a dict, in order. -/
def dkeys (d : PyDict) : List String := d.map Prod.fst

theorem dlookup_dictSet_self (d : PyDict) (k : String) (v : PyVal) :
    dlookup (dictSet d k v) k = some v := by
  induction d with
  | nil => simp [dictSet, dlookup]
  | cons hd tl ih =>
    obtain ⟨k₂, v₂⟩ := hd
    by_cases h : k₂ = k
    · simp [dictSet, h, dlookup]
    · simp [dictSet, h, dlookup, ih]

theorem dlookup_dictSet_ne (d : PyDict) (k k₃ : String) (v : PyVal)
    (h : k ≠ k₃) : dlookup (dictSet d k v) k₃ = dlookup d k₃ := by
  induction d with
  | nil => simp [dictSet, dlookup, h]
  | cons hd tl ih =>
    obtain ⟨k₂, v₂⟩ := hd
    by_cases h₂ : k₂ = k
    · subst h₂; simp [dictSet, dlookup, h]
    · simp [dictSet, h₂, dlookup, ih]

/-! ## Typed wire representation: `ActivityObject.__init__` and `serialize`
(base_activity.py lines 52-65 and 153-157). -/

/-- A declared dataclass field: its name and, when one exists, its
default value (`none` models `dataclasses.MISSING` as the default, i.e.
a required field).  None of the dataclasses in the source declare a
`default_factory`, so defaults are plain values. -/
structure DField where
  name : String
  default : Option PyVal
deriving Repr

/-- Embedding of `ActivityObject.__init__` (base_activity.py 52-65):
walk the declared fields in order; take the value from the keyword
payload when present, else the default when one exists, else raise
`ActivitySerializerError` naming the missing field.  Payload keys that
are not declared fields are ignored.  The constructed object is its
attribute dict. -/
def constructObj : List DField → PyDict → Except String PyDict
  | [], _ => .ok []
  | f :: rest, payload =>
    match dlookup payload f.name with
    | some v =>
      match constructObj rest payload with
      | .ok d => .ok ((f.name, v) :: d)
      | .error e => .error e
    | none =>
      match f.default with
      | some dv =>
        match constructObj rest payload with
        | .ok d => .ok ((f.name, dv) :: d)
        | .error e => .error e
      | none => .error ("Missing required field: " ++ f.name)

/-- Success test on construction outcomes. -/
def eIsOk : Except String PyDict → Bool
  | .ok _ => true
  | .error _ => false

/-- An `ActivityObject` at runtime: its `__dict__`. -/
structure ActivityObj where
  dict : PyDict
deriving Repr

/-- The activitystreams namespace URI injected by `serialize`. -/
def contextURI : String := "https://www.w3.org/ns/activitystreams"

/-- Embedding of `ActivityObject.serialize` (base_activity.py 153-157):
`data = self.__dict__` aliases the attribute dict, so writing
`data[\x27@context\x27]` both builds the returned payload and mutates the
object.  The result is the returned payload together with the
post-call object. -/
def serialize (o : ActivityObj) : PyDict × ActivityObj :=
  let data := dictSet o.dict "@context" (.pstr contextURI)
  (data, ⟨data⟩)

/-! ## Mapping engine: `ActivityObject.to_model` (base_activity.py 68-150).

Django specifics are embedded as data: a model field is its name, its
activitypub field name, its category (plain column, `ImageFileDescriptor`
or `ManyToManyDescriptor`) and its `field_from_activity` converter.  A
model instance is its `remote_id` plus its attribute dict.  Effects are
made explicit in the result: whether `instance.save()` ran, which
many-to-many sets were applied post-save, and which
`set_related_field.delay` messages were dispatched. -/

/-- Category of a Django model field as tested at base_activity.py 98-106. -/
inductive FieldCat where
  | scalar
  | image
  | m2m
deriving Repr, DecidableEq

/-- A convertible model field: `field.name`, `field.get_activitypub_field()`,
its descriptor category, and `field.field_from_activity`. -/
structure ModelField where
  name : String
  apField : String
  cat : FieldCat
  from_activity : PyVal → PyVal

/-- A reverse-relation declaration from `model.deserialize_reverse_fields`:
the model field name, the activity field name, whether the model side is
one-to-many (the `try` branch at base_activity.py 133-135), and the name
of the related model. -/
structure RevField where
  model_field : String
  activity_field : String
  one_to_many : Bool
  related_model : String

/-- A model instance: its durable identity and attribute dict. -/
structure Instance where
  remote_id : String
  attrs : PyDict
deriving Repr

/-- Attribute write, `setattr(instance, name, value)`. -/
def setAttr (i : Instance) (k : String) (v : PyVal) : Instance :=
  ⟨i.remote_id, dictSet i.attrs k v⟩

/-- One `set_related_field.delay(...)` message (base_activity.py 142-149). -/
structure DeferredReq where
  model_name : String
  origin_model_name : String
  related_field_name : String
  related_remote_id : String
  item : PyVal
deriving Repr

/-- Result of `to_model`: the returned instance and the explicit effects. -/
structure ToModelResult where
  inst : Instance
  saved : Bool
  m2m_set : List (String × PyVal)
  dispatched : List DeferredReq

/-- Static data of one `to_model` call site: the runtime class of `self`,
the class `model.activity_serializer` expects, the model name, the
convertible fields, the reverse-field declarations and whether the model
declares any, the result of `model.find_existing(self.serialize())`, and
the fresh instance `model()`. -/
structure ToModelEnv where
  selfType : String
  serializerType : String
  modelName : String
  originModelName : String
  mfields : List ModelField
  has_reverse : Bool
  reverse_fields : List RevField
  find_existing : Option Instance
  fresh : Instance

/-- The skip test at base_activity.py 93:
`if value is None or value is MISSING: continue`. -/
def isSkip : PyVal → Bool
  | .pnone => true
  | .pmissing => true
  | _ => false

/-- The field loop of `to_model` (base_activity.py 83-106): deserialize
each convertible field from the activity; skip `None`/`MISSING` results;
assign scalar results directly, stash image and many-to-many results. -/
def fieldLoop (activity : String → PyVal) :
    List ModelField → Instance → Instance × List (String × PyVal) × List (String × PyVal)
  | [], inst => (inst, [], [])
  | f :: rest, inst =>
    let value := f.from_activity (activity f.apField)
    if isSkip value then fieldLoop activity rest inst
    else
      match f.cat with
      | .scalar => fieldLoop activity rest (setAttr inst f.name value)
      | .image =>
        let r := fieldLoop activity rest inst
        (r.1, (f.name, value) :: r.2.1, r.2.2)
      | .m2m =>
        let r := fieldLoop activity rest inst
        (r.1, r.2.1, (f.name, value) :: r.2.2)

/-- The reverse-field dispatch loop (base_activity.py 126-149): for each
declared reverse field, read the activity attribute, skip `None`/`MISSING`,
iterate the values (wrapping a single value for one-to-one relations) and
emit one deferred message per item. -/
def reverseDispatch (activity : String → PyVal) (originModelName remoteId : String) :
    List RevField → List DeferredReq
  | [] => []
  | rf :: rest =>
    let values := activity rf.activity_field
    if isSkip values then reverseDispatch activity originModelName remoteId rest
    else
      let items := if rf.one_to_many then
          match values with
          | .plist xs => xs
          | v => [v]
        else [values]
      items.map (fun it =>
        ⟨rf.related_model, originModelName, originModelName.toLower, remoteId, it⟩)
        ++ reverseDispatch activity originModelName remoteId rest

/-- Instance selection at base_activity.py 79-81: use the supplied
instance, else `model.find_existing(self.serialize())`, else `model()`. -/
def instSelect (env : ToModelEnv) : Option Instance → Instance
  | some i => i
  | none =>
    match env.find_existing with
    | some i => i
    | none => env.fresh

/-- The image loop at base_activity.py 109-110: each stashed image value
is stored on the in-memory field via `FieldFile.save`. -/
def applyImages (imgs : List (String × PyVal)) (i : Instance) : Instance :=
  imgs.foldl (fun i kv => setAttr i kv.1 kv.2) i

/-- Embedding of `ActivityObject.to_model` (base_activity.py 68-150).
`activity` is attribute read on `self` (`getattr(self, apField)`).
The image loop at 109-110 runs before the `save` check at 112, calling
`FieldFile.save(name, content, save=save)`, which stores the value on
the in-memory field either way; with `save=False` the function then
returns without `instance.save()`, many-to-many writes or dispatch. -/
def to_model (env : ToModelEnv) (activity : String → PyVal)
    (instance? : Option Instance) (save : Bool) : Except String ToModelResult :=
  if env.selfType = env.serializerType then
    let r := fieldLoop activity env.mfields (instSelect env instance?)
    let inst2 := applyImages r.2.1 r.1
    if !save then .ok ⟨inst2, false, [], []⟩
    else if !env.has_reverse then .ok ⟨inst2, true, r.2.2, []⟩
    else .ok ⟨inst2, true, r.2.2,
      reverseDispatch activity env.originModelName inst2.remote_id env.reverse_fields⟩
  else
    .error ("Wrong activity type \"" ++ env.selfType ++ "\" for model \"" ++
      env.modelName ++ "\" (expects \"" ++ env.serializerType ++ "\")")

/-! ## Remote object resolver: `resolve_remote_id` (base_activity.py 191-213)
and deferred reverse-relation resolver: `set_related_field`
(base_activity.py 160-188).

The storage collaborator is a read view (`find_existing_by_remote_id`,
`find_existing`); writes are returned explicitly as the list of rows
saved by the call.  The network collaborator `get_data` either returns
a payload or fails with a transport error string
(`ConnectorException` / `ConnectionError`). -/

/-- Read view of the store for one model. -/
structure Store where
  byRemoteId : String → Option Instance
  findExisting : PyDict → Option Instance

/-- Attribute read on a constructed activity object:
`getattr(item, apField)`. -/
def objAttr (obj : PyDict) (k : String) : PyVal := (dlookup obj k).getD .pmissing

/-- Embedding of `resolve_remote_id` (base_activity.py 191-213).  Returns
the outcome, the number of `get_data` calls made, and the rows saved.
Control flow follows the source: return the cache hit unless refreshing;
fetch, translating `ConnectorException`/`ConnectionError` into an
`ActivitySerializerError` naming the model and the remote id; run
`find_existing` deduplication when the id lookup missed, returning the
match unless refreshing; construct the serializer object and run
`to_model` on it with the found instance, if any. -/
def resolve_remote_id (store : Store) (env : ToModelEnv) (dfields : List DField)
    (get_data : String → Except String PyDict) (remote_id : String)
    (refresh save : Bool) : Except String Instance × Nat × List Instance :=
  let result := store.byRemoteId remote_id
  if result.isSome && !refresh then
    (.ok (result.getD env.fresh), 0, [])
  else
    match get_data remote_id with
    | .error _ =>
      (.error ("Could not connect to host for remote_id in " ++ env.modelName ++
        " model: " ++ remote_id), 1, [])
    | .ok data =>
      let dedup := if result.isNone then store.findExisting data else none
      if dedup.isSome && !refresh then
        (.ok (dedup.getD env.fresh), 1, [])
      else
        let result₂ := match result with
          | some r => some r
          | none => dedup
        match constructObj dfields data with
        | .error e => (.error e, 1, [])
        | .ok obj =>
          match to_model env (objAttr obj) result₂ save with
          | .error e => (.error e, 1, [])
          | .ok r => (.ok r.inst, 1, if r.saved then [r.inst] else [])

/-- Embedding of `set_related_field` (base_activity.py 160-188).  Builds
the target item without saving (string payloads go through
`resolve_remote_id(..., save=False)`, inline payloads through
`find_existing` then `activity_serializer(**data).to_model(save=False)`),
then looks up the origin instance by remote id, raising
`ValueError(\x27Invalid related remote id: ...\x27)` when it is absent; only
after that is the relation set and `item.save()` run.  Returns the
outcome and the rows saved by the call. -/
def set_related_field (store : Store) (env : ToModelEnv) (dfields : List DField)
    (get_data : String → Except String PyDict)
    (data : Sum String PyDict)
    (related_field_name related_remote_id : String) :
    Except String Instance × List Instance :=
  let built : Except String Instance × List Instance :=
    match data with
    | .inl s =>
      let r := resolve_remote_id store env dfields get_data s false false
      (r.1, r.2.2)
    | .inr d =>
      match store.findExisting d with
      | some item => (.ok item, [])
      | none =>
        match constructObj dfields d with
        | .error e => (.error e, [])
        | .ok obj =>
          match to_model env (objAttr obj) none false with
          | .error e => (.error e, [])
          | .ok r => (.ok r.inst, if r.saved then [r.inst] else [])
  match built.1 with
  | .error e => (.error e, built.2)
  | .ok item =>
    match store.byRemoteId related_remote_id with
    | none => (.error ("Invalid related remote id: " ++ related_remote_id), built.2)
    | some origin =>
      let item₂ := setAttr item related_field_name (.pstr origin.remote_id)
      (.ok item₂, built.2 ++ [item₂])

/-! ## Outbound activity builder: `Status.to_activity` (models/status.py 71-115).

The `Status` model keeps only the fields this function reads.  The
followers collection address is a parameter, as in the source it is
computed from the user by a field serializer outside this excerpt. -/

/-- A `Status` row as read by `to_activity`: durable identity, deletion
flag and timestamp (ISO string), privacy level, mention remote ids, and
the content column. -/
structure StatusM where
  remote_id : String
  deleted : Bool
  deleted_date : String
  privacy : String
  mentions : List String
  content : PyVal

/-- Modelled from the spec: `ActivitypubMixin.to_activity` (base_model.py,
not part of this excerpt) emits the declared wire variant with all
convertible fields serialized via the registry (spec 4.6).  For `Status`
the convertible fields carry the activitypub names `attributedTo`,
`content`, `tag`, `published` and `inReplyTo` plus `id` and `type`;
none of them is named `to` or `cc`. -/
def statusBaseActivity (s : StatusM) (attributedTo published : String)
    (inReplyTo : PyVal) : PyDict :=
  [("id", .pstr s.remote_id), ("type", .pstr "Note"),
   ("published", .pstr published), ("attributedTo", .pstr attributedTo),
   ("content", s.content),
   ("tag", .plist (s.mentions.map PyVal.pstr)),
   ("inReplyTo", inReplyTo)]

/-- The fixed public address used at models/status.py 84. -/
def publicAddress : String := "https://www.w3.org/ns/activitystreams#Public"

/-- Modelled from the spec: the `Tombstone` wire variant (not part of this
excerpt) carries `id`, `url`, `deleted`, `published` (spec section 6) plus
its `type` discriminant; `Status.to_activity` constructs it with all four
keywords and calls `serialize()` on it, which appends `@context`. -/
def tombstoneActivity (s : StatusM) : PyDict :=
  (serialize ⟨[("id", .pstr s.remote_id), ("url", .pstr s.remote_id),
    ("deleted", .pstr s.deleted_date), ("published", .pstr s.deleted_date),
    ("type", .pstr "Tombstone")]⟩).1

/-- Embedding of `Status.to_activity` with `pure=False`
(models/status.py 71-101): tombstone substitution for deleted rows,
otherwise the base activity plus the replies collection reference and
the privacy addressing chain.  Note the `direct` case is a separate
`if`, not an `elif`, after the three-way chain. -/
def status_to_activity (s : StatusM) (followers attributedTo published : String)
    (inReplyTo : PyVal) : PyDict :=
  if s.deleted then tombstoneActivity s
  else
    let activity := dictSet (statusBaseActivity s attributedTo published inReplyTo)
      "replies" (.pstr (s.remote_id ++ "/replies"))
    let mentions := s.mentions.map PyVal.pstr
    let a₁ :=
      if s.privacy = "public" then
        dictSet (dictSet activity "to" (.plist [.pstr publicAddress]))
          "cc" (.plist (.pstr followers :: mentions))
      else if s.privacy = "unlisted" then
        dictSet (dictSet activity "to" (.plist [.pstr followers]))
          "cc" (.plist (.pstr publicAddress :: mentions))
      else if s.privacy = "followers" then
        dictSet (dictSet activity "to" (.plist [.pstr followers]))
          "cc" (.plist mentions)
      else activity
    if s.privacy = "direct" then
      dictSet (dictSet a₁ "to" (.plist mentions)) "cc" (.plist [])
    else a₁

/-! ## Theorems about the outbound activity builder -/

theorem dlookup_to_of_set_to_cc (A : PyDict) (tv cv : PyVal) :
    dlookup (dictSet (dictSet A "to" tv) "cc" cv) "to" = some tv := by
  rw [dlookup_dictSet_ne _ _ _ _ (by decide)]
  exact dlookup_dictSet_self ..

theorem dlookup_cc_of_set_to_cc (A : PyDict) (tv cv : PyVal) :
    dlookup (dictSet (dictSet A "to" tv) "cc" cv) "cc" = some cv :=
  dlookup_dictSet_self ..

theorem statusBase_no_to (s : StatusM) (aT pub : String) (irt : PyVal) :
    dlookup (dictSet (statusBaseActivity s aT pub irt)
      "replies" (.pstr (s.remote_id ++ "/replies"))) "to" = none := by
  rw [dlookup_dictSet_ne _ _ _ _ (by decide)]
  simp [statusBaseActivity, dlookup]

theorem statusBase_no_cc (s : StatusM) (aT pub : String) (irt : PyVal) :
    dlookup (dictSet (statusBaseActivity s aT pub irt)
      "replies" (.pstr (s.remote_id ++ "/replies"))) "cc" = none := by
  rw [dlookup_dictSet_ne _ _ _ _ (by decide)]
  simp [statusBaseActivity, dlookup]

/-- C1: for a non-deleted Status, with public address `publicAddress`,
followers address `F` and mention list `M`, the addressing produced by
`to_activity` matches the table: public gives to=[P], cc=[F]+M;
unlisted gives to=[F], cc=[P]+M; followers gives to=[F], cc=M;
direct gives to=M, cc=[]. -/
theorem privacy_addressing_table (s : StatusM) (F aT pub : String) (irt : PyVal)
    (hdel : s.deleted = false) :
    (s.privacy = "public" →
      dlookup (status_to_activity s F aT pub irt) "to" =
        some (.plist [.pstr publicAddress]) ∧
      dlookup (status_to_activity s F aT pub irt) "cc" =
        some (.plist (.pstr F :: s.mentions.map PyVal.pstr))) ∧
    (s.privacy = "unlisted" →
      dlookup (status_to_activity s F aT pub irt) "to" =
        some (.plist [.pstr F]) ∧
      dlookup (status_to_activity s F aT pub irt) "cc" =
        some (.plist (.pstr publicAddress :: s.mentions.map PyVal.pstr))) ∧
    (s.privacy = "followers" →
      dlookup (status_to_activity s F aT pub irt) "to" =
        some (.plist [.pstr F]) ∧
      dlookup (status_to_activity s F aT pub irt) "cc" =
        some (.plist (s.mentions.map PyVal.pstr))) ∧
    (s.privacy = "direct" →
      dlookup (status_to_activity s F aT pub irt) "to" =
        some (.plist (s.mentions.map PyVal.pstr)) ∧
      dlookup (status_to_activity s F aT pub irt) "cc" =
        some (.plist [])) := by
  refine ⟨fun hp => ?_, fun hp => ?_, fun hp => ?_, fun hp => ?_⟩ <;>
    simp [status_to_activity, hdel, hp, dlookup_to_of_set_to_cc,
      dlookup_cc_of_set_to_cc]

/-- Witness for C1 at a concrete direct-privacy status. -/
theorem privacy_addressing_table_witness :
    dlookup (status_to_activity
      ⟨"http://a/s/1", false, "", "direct", ["http://a/u/m"], .pstr "hi"⟩
      "http://a/u/me/followers" "http://a/u/me" "2020-05-10" .pnone) "to" =
      some (.plist [.pstr "http://a/u/m"]) ∧
    dlookup (status_to_activity
      ⟨"http://a/s/1", false, "", "direct", ["http://a/u/m"], .pstr "hi"⟩
      "http://a/u/me/followers" "http://a/u/me" "2020-05-10" .pnone) "cc" =
      some (.plist []) :=
  (privacy_addressing_table
    ⟨"http://a/s/1", false, "", "direct", ["http://a/u/m"], .pstr "hi"⟩
    "http://a/u/me/followers" "http://a/u/me" "2020-05-10" .pnone rfl).2.2.2 rfl

/-- C10: a non-deleted Status whose privacy is none of the four known
levels gets neither a `to` key nor a `cc` key in its activity. -/
theorem addressing_omitted_for_unknown_privacy (s : StatusM)
    (F aT pub : String) (irt : PyVal) (hdel : s.deleted = false)
    (h₁ : s.privacy ≠ "public") (h₂ : s.privacy ≠ "unlisted")
    (h₃ : s.privacy ≠ "followers") (h₄ : s.privacy ≠ "direct") :
    dlookup (status_to_activity s F aT pub irt) "to" = none ∧
    dlookup (status_to_activity s F aT pub irt) "cc" = none := by
  constructor <;>
    simp [status_to_activity, hdel, h₁, h₂, h₃, h₄,
      statusBase_no_to, statusBase_no_cc]

/-- Witness for C10 at a status with privacy value `friends`. -/
theorem addressing_omitted_for_unknown_privacy_witness :
    dlookup (status_to_activity
      ⟨"http://a/s/2", false, "", "friends", [], .pnone⟩
      "F" "A" "2020-05-10" .pnone) "to" = none ∧
    dlookup (status_to_activity
      ⟨"http://a/s/2", false, "", "friends", [], .pnone⟩
      "F" "A" "2020-05-10" .pnone) "cc" = none :=
  addressing_omitted_for_unknown_privacy
    ⟨"http://a/s/2", false, "", "friends", [], .pnone⟩
    "F" "A" "2020-05-10" .pnone rfl
    (by decide) (by decide) (by decide) (by decide)

/-- C6: a deleted Status with deletion timestamp `T` serializes to a
Tombstone whose `id` and `url` are the remote id and whose `deleted`
and `published` are `T`; the emitted keys are exactly `id`, `url`,
`deleted`, `published`, `type`, `@context`, so no original content
field appears. -/
theorem tombstone_substitution (s : StatusM) (F aT pub : String) (irt : PyVal)
    (hdel : s.deleted = true) :
    dlookup (status_to_activity s F aT pub irt) "id" = some (.pstr s.remote_id) ∧
    dlookup (status_to_activity s F aT pub irt) "url" = some (.pstr s.remote_id) ∧
    dlookup (status_to_activity s F aT pub irt) "deleted" =
      some (.pstr s.deleted_date) ∧
    dlookup (status_to_activity s F aT pub irt) "published" =
      some (.pstr s.deleted_date) ∧
    dkeys (status_to_activity s F aT pub irt) =
      ["id", "url", "deleted", "published", "type", "@context"] ∧
    dlookup (status_to_activity s F aT pub irt) "content" = none ∧
    dlookup (status_to_activity s F aT pub irt) "attributedTo" = none := by
  refine ⟨?_, ?_, ?_, ?_, ?_, ?_, ?_⟩ <;>
    simp [status_to_activity, hdel, tombstoneActivity, serialize, dictSet,
      dlookup, dkeys, contextURI]

/-- Witness for C6 at a concrete deleted status. -/
theorem tombstone_substitution_witness :
    dlookup (status_to_activity
      ⟨"http://a/s/3", true, "2020-05-10T00:00:00", "public", [], .pstr "gone"⟩
      "F" "A" "2020-01-01" .pnone) "deleted" =
      some (.pstr "2020-05-10T00:00:00") ∧
    dlookup (status_to_activity
      ⟨"http://a/s/3", true, "2020-05-10T00:00:00", "public", [], .pstr "gone"⟩
      "F" "A" "2020-01-01" .pnone) "content" = none :=
  ⟨(tombstone_substitution
      ⟨"http://a/s/3", true, "2020-05-10T00:00:00", "public", [], .pstr "gone"⟩
      "F" "A" "2020-01-01" .pnone rfl).2.2.1,
   (tombstone_substitution
      ⟨"http://a/s/3", true, "2020-05-10T00:00:00", "public", [], .pstr "gone"⟩
      "F" "A" "2020-01-01" .pnone rfl).2.2.2.2.2.1⟩

/-! ## Theorems about wire-object construction -/

theorem constructObj_keys (fs : List DField) (payload : PyDict) :
    ∀ obj, constructObj fs payload = .ok obj → dkeys obj = fs.map DField.name := by
  induction fs with
  | nil =>
    intro obj h
    simp only [constructObj] at h
    cases h
    rfl
  | cons f rest ih =>
    intro obj h
    simp only [constructObj] at h
    cases hl : dlookup payload f.name with
    | some v =>
      rw [hl] at h
      cases hr : constructObj rest payload with
      | ok d => rw [hr] at h; cases h; simpa [dkeys] using ih d hr
      | error e => rw [hr] at h; cases h
    | none =>
      rw [hl] at h
      cases hd : f.default with
      | some dv =>
        rw [hd] at h
        cases hr : constructObj rest payload with
        | ok d => rw [hr] at h; cases h; simpa [dkeys] using ih d hr
        | error e => rw [hr] at h; cases h
      | none => rw [hd] at h; cases h

theorem constructObj_isOk_iff (fs : List DField) (payload : PyDict) :
    eIsOk (constructObj fs payload) = true ↔
      ∀ f ∈ fs, f.default = none → (dlookup payload f.name).isSome := by
  induction fs with
  | nil => simp [constructObj, eIsOk]
  | cons f rest ih =>
    cases hl : dlookup payload f.name with
    | some v =>
      cases hr : constructObj rest payload with
      | ok d => simp_all [constructObj, eIsOk, hl, hr]
      | error e => simp_all [constructObj, eIsOk, hl, hr]
    | none =>
      cases hd : f.default with
      | some dv =>
        cases hr : constructObj rest payload with
        | ok d => simp_all [constructObj, eIsOk, hl, hd, hr]
        | error e => simp_all [constructObj, eIsOk, hl, hd, hr]
      | none =>
        simp [constructObj, eIsOk, hl, hd]

theorem constructObj_error_names (fs : List DField) (payload : PyDict) :
    ∀ msg, constructObj fs payload = .error msg →
      ∃ f ∈ fs, f.default = none ∧ dlookup payload f.name = none ∧
        msg = "Missing required field: " ++ f.name := by
  induction fs with
  | nil => intro msg h; simp [constructObj] at h
  | cons f rest ih =>
    intro msg h
    simp only [constructObj] at h
    cases hl : dlookup payload f.name with
    | some v =>
      rw [hl] at h
      cases hr : constructObj rest payload with
      | ok d => rw [hr] at h; cases h
      | error e =>
        rw [hr] at h
        cases h
        obtain ⟨g, hg, hgd, hgl, hge⟩ := ih msg hr
        exact ⟨g, by simp [hg], hgd, hgl, hge⟩
    | none =>
      rw [hl] at h
      cases hd : f.default with
      | some dv =>
        rw [hd] at h
        cases hr : constructObj rest payload with
        | ok d => rw [hr] at h; cases h
        | error e =>
          rw [hr] at h
          cases h
          obtain ⟨g, hg, hgd, hgl, hge⟩ := ih msg hr
          exact ⟨g, by simp [hg], hgd, hgl, hge⟩
      | none =>
        rw [hd] at h
        cases h
        exact ⟨f, by simp, hd, hl, rfl⟩

theorem constructObj_default (fs : List DField) (payload : PyDict)
    (hnodup : (fs.map DField.name).Nodup) :
    ∀ obj, constructObj fs payload = .ok obj →
      ∀ f ∈ fs, dlookup payload f.name = none →
        ∀ d, f.default = some d → dlookup obj f.name = some d := by
  induction fs with
  | nil => intro obj h f hf; simp at hf
  | cons g rest ih =>
    intro obj h f hf hfl d hfd
    simp only [constructObj] at h
    have hrest : (rest.map DField.name).Nodup := by
      simpa using hnodup.of_cons
    rcases List.mem_cons.mp hf with hfg | hfr
    · subst hfg
      rw [hfl, hfd] at h
      cases hr : constructObj rest payload with
      | ok dd => rw [hr] at h; cases h; simp [dlookup]
      | error e => rw [hr] at h; cases h
    · have hne : g.name ≠ f.name := by
        intro he
        have : f.name ∈ rest.map DField.name := List.mem_map_of_mem _ hfr
        rw [← he] at this
        exact (List.nodup_cons.mp hnodup).1 this
      cases hl : dlookup payload g.name with
      | some v =>
        rw [hl] at h
        cases hr : constructObj rest payload with
        | ok dd =>
          rw [hr] at h; cases h
          simp only [dlookup, if_neg hne]
          exact ih hrest dd hr f hfr hfl d hfd
        | error e => rw [hr] at h; cases h
      | none =>
        rw [hl] at h
        cases hd : g.default with
        | some dv =>
          rw [hd] at h
          cases hr : constructObj rest payload with
          | ok dd =>
            rw [hr] at h; cases h
            simp only [dlookup, if_neg hne]
            exact ih hrest dd hr f hfr hfl d hfd
          | error e => rw [hr] at h; cases h
        | none => rw [hd] at h; cases h

theorem dlookup_eq_none_of_not_mem_dkeys (d : PyDict) (k : String)
    (h : k ∉ dkeys d) : dlookup d k = none := by
  induction d with
  | nil => rfl
  | cons hd tl ih =>
    obtain ⟨k₂, v⟩ := hd
    simp only [dkeys, List.map_cons, List.mem_cons] at h
    push_neg at h
    simp only [dlookup]
    rw [if_neg (fun he => h.1 he.symm)]
    exact ih (by simpa [dkeys] using h.2)

/-- C2: constructing a wire object succeeds exactly when every declared
field without a default has a value in the payload; a missing
default-less field fails with an error naming that field; a declared
field absent from the payload with a default receives the default; and
payload keys that are not declared fields are dropped. -/
theorem wire_construction_contract (fs : List DField) (payload : PyDict)
    (hnodup : (fs.map DField.name).Nodup) :
    (eIsOk (constructObj fs payload) = true ↔
      ∀ f ∈ fs, f.default = none → (dlookup payload f.name).isSome) ∧
    (∀ msg, constructObj fs payload = .error msg →
      ∃ f ∈ fs, f.default = none ∧ dlookup payload f.name = none ∧
        msg = "Missing required field: " ++ f.name) ∧
    (∀ obj, constructObj fs payload = .ok obj →
      ∀ f ∈ fs, dlookup payload f.name = none →
        ∀ d, f.default = some d → dlookup obj f.name = some d) ∧
    (∀ obj, constructObj fs payload = .ok obj →
      ∀ k, k ∉ fs.map DField.name → dlookup obj k = none) :=
  ⟨constructObj_isOk_iff fs payload,
   constructObj_error_names fs payload,
   constructObj_default fs payload hnodup,
   fun obj h k hk =>
     dlookup_eq_none_of_not_mem_dkeys obj k
       (by rw [constructObj_keys fs payload obj h]; exact hk)⟩

/-- Witness for C2 on the `Signature` dataclass fields
(base_activity.py 37-43) with a payload missing the required
`signatureValue` and carrying an undeclared key. -/
theorem wire_construction_contract_witness :
    ((["creator", "created", "signatureValue", "type"] : List String).Nodup) ∧
    eIsOk (constructObj
      [⟨"creator", none⟩, ⟨"created", none⟩, ⟨"signatureValue", none⟩,
       ⟨"type", some (.pstr "RsaSignature2017")⟩]
      [("creator", .pstr "http://a/u/1"), ("created", .pstr "2020-05-10"),
       ("junk", .pstr "x")]) = false :=
  ⟨by decide, by
    have h := (wire_construction_contract
      [⟨"creator", none⟩, ⟨"created", none⟩, ⟨"signatureValue", none⟩,
       ⟨"type", some (.pstr "RsaSignature2017")⟩]
      [("creator", .pstr "http://a/u/1"), ("created", .pstr "2020-05-10"),
       ("junk", .pstr "x")] (by decide)).1
    revert h
    cases hh : eIsOk (constructObj
      [⟨"creator", none⟩, ⟨"created", none⟩, ⟨"signatureValue", none⟩,
       ⟨"type", some (.pstr "RsaSignature2017")⟩]
      [("creator", .pstr "http://a/u/1"), ("created", .pstr "2020-05-10"),
       ("junk", .pstr "x")])
    · simp
    · intro h
      have := h.mp rfl ⟨"signatureValue", none⟩ (by simp) rfl
      simp [dlookup] at this⟩

/-! ## Theorems about the mapping engine -/

theorem dlookup_setAttr_self (i : Instance) (k : String) (v : PyVal) :
    dlookup (setAttr i k v).attrs k = some v := dlookup_dictSet_self ..

theorem dlookup_setAttr_ne (i : Instance) (k k₃ : String) (v : PyVal)
    (h : k ≠ k₃) : dlookup (setAttr i k v).attrs k₃ = dlookup i.attrs k₃ :=
  dlookup_dictSet_ne _ _ _ _ h

theorem fieldLoop_skip_frame (act : String → PyVal) (l : List ModelField)
    (n : String)
    (h : ∀ f ∈ l, f.name = n → isSkip (f.from_activity (act f.apField)) = true) :
    ∀ i : Instance,
      dlookup (fieldLoop act l i).1.attrs n = dlookup i.attrs n ∧
      ∀ v, (n, v) ∉ (fieldLoop act l i).2.1 := by
  induction l with
  | nil => intro i; simp [fieldLoop]
  | cons f rest ih =>
    intro i
    have hrest : ∀ g ∈ rest, g.name = n →
        isSkip (g.from_activity (act g.apField)) = true :=
      fun g hg hn => h g (List.mem_cons_of_mem f hg) hn
    cases hskip : isSkip (f.from_activity (act f.apField)) with
    | true => simpa [fieldLoop, hskip] using ih hrest i
    | false =>
      have hnn : f.name ≠ n := fun he => by
        rw [h f (List.mem_cons_self f rest) he] at hskip
        cases hskip
      cases hcat : f.cat with
      | scalar =>
        have hih := ih hrest (setAttr i f.name (f.from_activity (act f.apField)))
        simp only [fieldLoop, hskip, hcat]
        exact ⟨hih.1.trans (dlookup_setAttr_ne _ _ _ _ hnn), hih.2⟩
      | image =>
        have hih := ih hrest i
        simp only [fieldLoop, hskip, hcat]
        refine ⟨hih.1, fun v hv => ?_⟩
        rcases List.mem_cons.mp hv with he | he
        · exact hnn (congrArg Prod.fst he).symm
        · exact hih.2 v he
      | m2m =>
        have hih := ih hrest i
        simp only [fieldLoop, hskip, hcat]
        exact ⟨hih.1, hih.2⟩

theorem fieldLoop_img_names (act : String → PyVal) (l : List ModelField) :
    ∀ (i : Instance) (n : String) (v : PyVal),
      (n, v) ∈ (fieldLoop act l i).2.1 → n ∈ l.map ModelField.name := by
  induction l with
  | nil => intro i n v hv; simp [fieldLoop] at hv
  | cons f rest ih =>
    intro i n v hv
    cases hskip : isSkip (f.from_activity (act f.apField)) with
    | true =>
      rw [fieldLoop] at hv
      simp only [hskip] at hv
      exact List.mem_cons_of_mem _ (ih i n v hv)
    | false =>
      rw [fieldLoop] at hv
      simp only [hskip] at hv
      cases hcat : f.cat with
      | scalar =>
        rw [hcat] at hv
        exact List.mem_cons_of_mem _ (ih _ n v hv)
      | image =>
        rw [hcat] at hv
        rcases List.mem_cons.mp hv with he | he
        · have hn : n = f.name := congrArg Prod.fst he
          simp [hn]
        · exact List.mem_cons_of_mem _ (ih i n v he)
      | m2m =>
        rw [hcat] at hv
        exact List.mem_cons_of_mem _ (ih i n v hv)

theorem fieldLoop_scalar_assign (act : String → PyVal) (l : List ModelField)
    (f : ModelField) (hnodup : (l.map ModelField.name).Nodup) (hf : f ∈ l)
    (hcat : f.cat = .scalar)
    (hval : isSkip (f.from_activity (act f.apField)) = false) :
    ∀ i : Instance,
      dlookup (fieldLoop act l i).1.attrs f.name =
        some (f.from_activity (act f.apField)) ∧
      ∀ v, (f.name, v) ∉ (fieldLoop act l i).2.1 := by
  induction l with
  | nil => simp at hf
  | cons g rest ih =>
    intro i
    have hrestnodup : (rest.map ModelField.name).Nodup := by
      simpa using hnodup.of_cons
    rcases List.mem_cons.mp hf with he | hfr
    · subst he
      have hnone : ∀ h₂ ∈ rest, h₂.name ≠ f.name := fun h₂ hh he₂ =>
        (List.nodup_cons.mp hnodup).1 (he₂ ▸ List.mem_map_of_mem ModelField.name hh)
      have hframe := fieldLoop_skip_frame act rest f.name
        (fun g₂ hg₂ hn₂ => absurd hn₂ (hnone g₂ hg₂))
        (setAttr i f.name (f.from_activity (act f.apField)))
      simp only [fieldLoop, hval, hcat]
      exact ⟨hframe.1.trans (dlookup_setAttr_self ..), hframe.2⟩
    · have hne : g.name ≠ f.name := fun he₂ =>
        (List.nodup_cons.mp hnodup).1 (he₂ ▸ List.mem_map_of_mem ModelField.name hfr)
      cases hskip : isSkip (g.from_activity (act g.apField)) with
      | true => simpa [fieldLoop, hskip] using ih hrestnodup hfr i
      | false =>
        cases hgcat : g.cat with
        | scalar =>
          simpa [fieldLoop, hskip, hgcat] using
            ih hrestnodup hfr (setAttr i g.name (g.from_activity (act g.apField)))
        | image =>
          have hih := ih hrestnodup hfr i
          simp only [fieldLoop, hskip, hgcat]
          refine ⟨hih.1, fun v hv => ?_⟩
          rcases List.mem_cons.mp hv with he₂ | he₂
          · exact hne (congrArg Prod.fst he₂).symm
          · exact hih.2 v he₂
        | m2m =>
          simpa [fieldLoop, hskip, hgcat] using ih hrestnodup hfr i

theorem fieldLoop_image_stash (act : String → PyVal) (l : List ModelField)
    (f : ModelField) (hnodup : (l.map ModelField.name).Nodup) (hf : f ∈ l)
    (hcat : f.cat = .image)
    (hval : isSkip (f.from_activity (act f.apField)) = false) :
    ∀ i : Instance,
      (f.name, f.from_activity (act f.apField)) ∈ (fieldLoop act l i).2.1 ∧
      ∀ w, (f.name, w) ∈ (fieldLoop act l i).2.1 →
        w = f.from_activity (act f.apField) := by
  induction l with
  | nil => simp at hf
  | cons g rest ih =>
    intro i
    have hrestnodup : (rest.map ModelField.name).Nodup := by
      simpa using hnodup.of_cons
    rcases List.mem_cons.mp hf with he | hfr
    · subst he
      have hnone : ∀ h₂ ∈ rest, h₂.name ≠ f.name := fun h₂ hh he₂ =>
        (List.nodup_cons.mp hnodup).1 (he₂ ▸ List.mem_map_of_mem ModelField.name hh)
      simp only [fieldLoop, hval, hcat]
      refine ⟨List.mem_cons_self .., fun w hw => ?_⟩
      rcases List.mem_cons.mp hw with he₂ | he₂
      · exact (Prod.mk.injEq ..).mp he₂ |>.2
      · exact absurd (fieldLoop_img_names act rest i f.name w he₂)
          (List.nodup_cons.mp (by simpa using hnodup)).1
    · have hne : g.name ≠ f.name := fun he₂ =>
        (List.nodup_cons.mp hnodup).1 (he₂ ▸ List.mem_map_of_mem ModelField.name hfr)
      cases hskip : isSkip (g.from_activity (act g.apField)) with
      | true => simpa [fieldLoop, hskip] using ih hrestnodup hfr i
      | false =>
        cases hgcat : g.cat with
        | scalar =>
          simpa [fieldLoop, hskip, hgcat] using
            ih hrestnodup hfr (setAttr i g.name (g.from_activity (act g.apField)))
        | image =>
          have hih := ih hrestnodup hfr i
          simp only [fieldLoop, hskip, hgcat]
          refine ⟨List.mem_cons_of_mem _ hih.1, fun w hw => ?_⟩
          rcases List.mem_cons.mp hw with he₂ | he₂
          · exact absurd (congrArg Prod.fst he₂).symm hne
          · exact hih.2 w he₂
        | m2m =>
          simpa [fieldLoop, hskip, hgcat] using ih hrestnodup hfr i

theorem applyImages_not_mem (lst : List (String × PyVal)) (n : String)
    (h : ∀ v, (n, v) ∉ lst) :
    ∀ i : Instance, dlookup (applyImages lst i).attrs n = dlookup i.attrs n := by
  induction lst with
  | nil => intro i; rfl
  | cons kv rest ih =>
    intro i
    obtain ⟨k, v⟩ := kv
    have hk : k ≠ n := fun he => h v (by simp [he])
    have hrest : ∀ w, (n, w) ∉ rest := fun w hw => h w (List.mem_cons_of_mem _ hw)
    calc dlookup (applyImages rest (setAttr i k v)).attrs n
        = dlookup (setAttr i k v).attrs n := ih hrest _
      _ = dlookup i.attrs n := dlookup_setAttr_ne _ _ _ _ hk

theorem applyImages_unique_mem (lst : List (String × PyVal)) (n : String)
    (v : PyVal) (hmem : (n, v) ∈ lst) (huniq : ∀ w, (n, w) ∈ lst → w = v) :
    ∀ i : Instance, dlookup (applyImages lst i).attrs n = some v := by
  induction lst with
  | nil => simp at hmem
  | cons kv rest ih =>
    intro i
    obtain ⟨k, w⟩ := kv
    by_cases hr : ∃ u, (n, u) ∈ rest
    · obtain ⟨u, hu⟩ := hr
      have huv : u = v := huniq u (List.mem_cons_of_mem _ hu)
      subst huv
      exact ih hu (fun x hx => huniq x (List.mem_cons_of_mem _ hx)) _
    · push_neg at hr
      rcases List.mem_cons.mp hmem with he | he
      · cases he
        calc dlookup (applyImages rest (setAttr i n v)).attrs n
            = dlookup (setAttr i n v).attrs n := applyImages_not_mem rest n hr _
          _ = some v := dlookup_setAttr_self ..
      · exact absurd he (hr v)

theorem to_model_ok_elim (env : ToModelEnv) (act : String → PyVal)
    (instance? : Option Instance) (save : Bool) (r : ToModelResult)
    (h : to_model env act instance? save = .ok r) :
    r.inst = applyImages (fieldLoop act env.mfields (instSelect env instance?)).2.1
      (fieldLoop act env.mfields (instSelect env instance?)).1 ∧
    r.saved = save ∧
    (save = false → r.m2m_set = [] ∧ r.dispatched = []) := by
  unfold to_model at h
  split at h
  · cases save with
    | false =>
      simp only [Bool.not_false, if_true] at h
      cases h
      exact ⟨rfl, rfl, fun _ => ⟨rfl, rfl⟩⟩
    | true =>
      cases hhr : env.has_reverse with
      | true =>
        rw [hhr] at h
        cases h
        exact ⟨rfl, rfl, fun hf => absurd hf (by simp)⟩
      | false =>
        rw [hhr] at h
        cases h
        exact ⟨rfl, rfl, fun hf => absurd hf (by simp)⟩
  · simp at h

/-- C3 counterexample: a scalar field whose deserializer yields `None`
(a deserialized null) is NOT assigned: the stored value survives, where
the claim requires the null to be assigned.  The conversion at
base_activity.py 93 skips `None` exactly like `MISSING`. -/
theorem to_model_skips_null_counterexample :
    (to_model ⟨"Note", "Note", "Status", "Status",
        [⟨"content", "content", .scalar, fun _ => .pnone⟩],
        false, [], none, ⟨"", []⟩⟩
      (fun _ => .pnone)
      (some ⟨"http://l/s/1", [("content", .pstr "old")]⟩) true).map
      (fun r => dlookup r.inst.attrs "content") = .ok (some (.pstr "old")) ∧
    some (PyVal.pstr "old") ≠ some PyVal.pnone :=
  ⟨rfl, by simp⟩

/-- C3 (amended): in `to_model`, for a scalar/reference field the
deserialized wire value is assigned directly unless it is `None` or
`MISSING`; for both `None` and `MISSING` the assignment is skipped and
the stored value is left unchanged. -/
theorem scalar_assignment_contract (env : ToModelEnv) (act : String → PyVal)
    (inst : Instance) (save : Bool) (f : ModelField) (r : ToModelResult)
    (hnodup : (env.mfields.map ModelField.name).Nodup)
    (hf : f ∈ env.mfields) (hcat : f.cat = .scalar)
    (h : to_model env act (some inst) save = .ok r) :
    (isSkip (f.from_activity (act f.apField)) = false →
      dlookup r.inst.attrs f.name = some (f.from_activity (act f.apField))) ∧
    (isSkip (f.from_activity (act f.apField)) = true →
      dlookup r.inst.attrs f.name = dlookup inst.attrs f.name) := by
  obtain ⟨hi, -, -⟩ := to_model_ok_elim env act (some inst) save r h
  constructor
  · intro hval
    rw [hi]
    have hsa := fieldLoop_scalar_assign act env.mfields f hnodup hf hcat hval
      (instSelect env (some inst))
    rw [applyImages_not_mem _ _ hsa.2 _]
    exact hsa.1
  · intro hval
    rw [hi]
    have hall : ∀ g ∈ env.mfields, g.name = f.name →
        isSkip (g.from_activity (act g.apField)) = true := by
      intro g hg hn
      have he := List.inj_on_of_nodup_map hnodup hg hf hn
      rw [he]
      exact hval
    have hfr := fieldLoop_skip_frame act env.mfields f.name hall
      (instSelect env (some inst))
    rw [applyImages_not_mem _ _ hfr.2 _, hfr.1]
    rfl

/-- Witness for the amended C3: a non-null deserialized value is
assigned over the stored one. -/
theorem scalar_assignment_contract_witness :
    (to_model ⟨"Note", "Note", "Status", "Status",
        [⟨"content", "content", .scalar, fun v => v⟩],
        false, [], none, ⟨"", []⟩⟩
      (fun _ => .pstr "new")
      (some ⟨"http://l/s/1", [("content", .pstr "old")]⟩) true).map
      (fun r => dlookup r.inst.attrs "content") = .ok (some (.pstr "new")) := by
  have h := (scalar_assignment_contract
    ⟨"Note", "Note", "Status", "Status",
      [⟨"content", "content", .scalar, fun v => v⟩],
      false, [], none, ⟨"", []⟩⟩
    (fun _ => .pstr "new")
    ⟨"http://l/s/1", [("content", .pstr "old")]⟩
    true
    ⟨"content", "content", .scalar, fun v => v⟩
    ⟨⟨"http://l/s/1", [("content", .pstr "new")]⟩, true, [], []⟩
    (by simp) (by simp) rfl rfl).1 rfl
  exact congrArg Except.ok h

/-- C4 counterexample: with `save=False` the stashed image value IS
applied to the returned in-memory instance, so `to_model` does not
return before attached-resources are applied (the image loop at
base_activity.py 109-110 precedes the `save` check at 112). -/
theorem persist_false_applies_images_counterexample :
    (to_model ⟨"Note", "Note", "Status", "Status",
        [⟨"cover", "attachment", .image, fun v => v⟩],
        false, [], none, ⟨"", []⟩⟩
      (fun k => if k = "attachment" then .pstr "http://img/1" else .pnone)
      (some ⟨"http://l/s/1", []⟩) false).map
      (fun r => dlookup r.inst.attrs "cover") = .ok (some (.pstr "http://img/1")) ∧
    (some (PyVal.pstr "http://img/1") : Option PyVal) ≠ none :=
  ⟨rfl, by simp⟩

/-- C4 (amended): calling `to_model` with `save=False` returns the
in-memory entity after scalar assignment and after attached-resource
application: stashed image values are applied to the instance, while
nothing is saved, no many-to-many association is set and no deferred
request is dispatched. -/
theorem persist_false_contract (env : ToModelEnv) (act : String → PyVal)
    (instance? : Option Instance) (r : ToModelResult)
    (h : to_model env act instance? false = .ok r) :
    r.saved = false ∧ r.m2m_set = [] ∧ r.dispatched = [] ∧
    ((env.mfields.map ModelField.name).Nodup →
      ∀ f ∈ env.mfields, f.cat = .image →
        isSkip (f.from_activity (act f.apField)) = false →
        dlookup r.inst.attrs f.name = some (f.from_activity (act f.apField))) := by
  obtain ⟨hi, hs, hme⟩ := to_model_ok_elim env act instance? false r h
  obtain ⟨hm, hd⟩ := hme rfl
  refine ⟨hs, hm, hd, fun hnodup f hf hcat hval => ?_⟩
  rw [hi]
  have hst := fieldLoop_image_stash act env.mfields f hnodup hf hcat hval
    (instSelect env instance?)
  exact applyImages_unique_mem _ _ _ hst.1 hst.2 _

/-- Witness for the amended C4 at a concrete image-carrying call. -/
theorem persist_false_contract_witness :
    (to_model ⟨"Note", "Note", "Status", "Status",
        [⟨"cover", "attachment", .image, fun v => v⟩],
        false, [], none, ⟨"", []⟩⟩
      (fun k => if k = "attachment" then .pstr "http://img/2" else .pnone)
      (some ⟨"http://l/s/2", []⟩) false).map
      (fun r => r.saved) = .ok false ∧
    (to_model ⟨"Note", "Note", "Status", "Status",
        [⟨"cover", "attachment", .image, fun v => v⟩],
        false, [], none, ⟨"", []⟩⟩
      (fun k => if k = "attachment" then .pstr "http://img/2" else .pnone)
      (some ⟨"http://l/s/2", []⟩) false).map
      (fun r => dlookup r.inst.attrs "cover") = .ok (some (.pstr "http://img/2")) := by
  have h := persist_false_contract
    ⟨"Note", "Note", "Status", "Status",
      [⟨"cover", "attachment", .image, fun v => v⟩],
      false, [], none, ⟨"", []⟩⟩
    (fun k => if k = "attachment" then .pstr "http://img/2" else .pnone)
    (some ⟨"http://l/s/2", []⟩)
    ⟨⟨"http://l/s/2", [("cover", .pstr "http://img/2")]⟩, false, [], []⟩
    rfl
  exact ⟨congrArg Except.ok h.1,
    congrArg Except.ok (h.2.2.2 (by simp)
      ⟨"cover", "attachment", .image, fun v => v⟩ (by simp) rfl rfl)⟩

/-- C9: refreshing an existing instance never clears stored fields: if
every convertible field named `n` deserializes to `None` or `MISSING`,
the stored attribute `n` of the supplied instance is unchanged in the
result. -/
theorem refresh_preserves_stored_fields (env : ToModelEnv)
    (act : String → PyVal) (inst : Instance) (save : Bool) (n : String)
    (r : ToModelResult)
    (hskip : ∀ f ∈ env.mfields, f.name = n →
      isSkip (f.from_activity (act f.apField)) = true)
    (h : to_model env act (some inst) save = .ok r) :
    dlookup r.inst.attrs n = dlookup inst.attrs n := by
  obtain ⟨hi, -, -⟩ := to_model_ok_elim env act (some inst) save r h
  rw [hi]
  have hfr := fieldLoop_skip_frame act env.mfields n hskip
    (instSelect env (some inst))
  rw [applyImages_not_mem _ _ hfr.2 _, hfr.1]
  rfl

/-- Witness for C9: a refresh whose wire value deserializes to null
leaves the stored publication date in place. -/
theorem refresh_preserves_stored_fields_witness :
    (to_model ⟨"Note", "Note", "Status", "Status",
        [⟨"published", "published", .scalar, fun _ => .pnone⟩],
        false, [], none, ⟨"", []⟩⟩
      (fun _ => .pnone)
      (some ⟨"http://l/s/9", [("published", .pstr "2020-01-01")]⟩) true).map
      (fun r => dlookup r.inst.attrs "published") =
      .ok (some (.pstr "2020-01-01")) := by
  have h := refresh_preserves_stored_fields
    ⟨"Note", "Note", "Status", "Status",
      [⟨"published", "published", .scalar, fun _ => .pnone⟩],
      false, [], none, ⟨"", []⟩⟩
    (fun _ => .pnone)
    ⟨"http://l/s/9", [("published", .pstr "2020-01-01")]⟩
    true "published"
    ⟨⟨"http://l/s/9", [("published", .pstr "2020-01-01")]⟩, true, [], []⟩
    (by intro f hf hn; simp at hf; subst hf; rfl) rfl
  exact congrArg Except.ok h

/-! ## Theorems about `serialize` -/

/-- C5 counterexample: `serialize` is not side-effect free.  The payload
is built on `self.__dict__` itself (base_activity.py 155-156), so after
the call the object carries an extra `@context` attribute and is no
longer equal to its pre-call state. -/
theorem serialize_mutates_object_counterexample :
    (serialize ⟨[("id", .pstr "http://a/s/1"), ("type", .pstr "Note")]⟩).2 ≠
      (⟨[("id", .pstr "http://a/s/1"), ("type", .pstr "Note")]⟩ : ActivityObj) := by
  intro h
  have hlen := congrArg (fun o => o.dict.length) h
  simp [serialize, dictSet] at hlen

/-- C5 (amended): `serialize` returns a payload holding every declared
field plus `@context` set to the protocol namespace URI, but the call
has a side effect: the returned payload is the attribute dict of the
object itself, which afterwards also carries the `@context` entry. -/
theorem serialize_contract (o : ActivityObj) :
    dlookup (serialize o).1 "@context" = some (.pstr contextURI) ∧
    (∀ k, k ≠ "@context" → dlookup (serialize o).1 k = dlookup o.dict k) ∧
    (serialize o).2.dict = (serialize o).1 := by
  refine ⟨dlookup_dictSet_self .., fun k hk => ?_, rfl⟩
  exact dlookup_dictSet_ne _ _ _ _ (Ne.symm hk)

/-- Witness for the amended C5 at a concrete one-field object. -/
theorem serialize_contract_witness :
    dlookup (serialize ⟨[("id", .pstr "http://a/s/5")]⟩).1 "@context" =
      some (.pstr contextURI) ∧
    dlookup (serialize ⟨[("id", .pstr "http://a/s/5")]⟩).1 "id" =
      some (.pstr "http://a/s/5") := by
  have h := serialize_contract ⟨[("id", .pstr "http://a/s/5")]⟩
  refine ⟨h.1, ?_⟩
  rw [h.2.1 "id" (by decide)]
  rfl

/-! ## Theorems about the resolvers -/

theorem resolve_save_false_writes (store : Store) (env : ToModelEnv)
    (dfields : List DField) (get_data : String → Except String PyDict)
    (remote_id : String) (refresh : Bool) :
    (resolve_remote_id store env dfields get_data remote_id refresh false).2.2 =
      [] := by
  unfold resolve_remote_id
  cases hb : store.byRemoteId remote_id with
  | some res =>
    cases refresh with
    | false => rfl
    | true =>
      cases hg : get_data remote_id with
      | error e => simp [hg]
      | ok data =>
        cases hc : constructObj dfields data with
        | error e => simp [hg, hc]
        | ok obj =>
          cases hm : to_model env (objAttr obj) (some res) false with
          | error e => simp [hg, hc, hm]
          | ok r => simp [hg, hc, hm, (to_model_ok_elim _ _ _ _ r hm).2.1]
  | none =>
    cases hg : get_data remote_id with
    | error e => simp [hg]
    | ok data =>
      cases hd : store.findExisting data with
      | some ded =>
        cases refresh with
        | false => simp [hg, hd]
        | true =>
          cases hc : constructObj dfields data with
          | error e => simp [hg, hd, hc]
          | ok obj =>
            cases hm : to_model env (objAttr obj) (some ded) false with
            | error e => simp [hg, hd, hc, hm]
            | ok r => simp [hg, hd, hc, hm, (to_model_ok_elim _ _ _ _ r hm).2.1]
      | none =>
        cases hc : constructObj dfields data with
        | error e => simp [hg, hd, hc]
        | ok obj =>
          cases hm : to_model env (objAttr obj) none false with
          | error e => simp [hg, hd, hc, hm]
          | ok r => simp [hg, hd, hc, hm, (to_model_ok_elim _ _ _ _ r hm).2.1]

/-- C8: when a network fetch is attempted (no cache hit is returned), a
connector or connection failure is translated into an
`ActivitySerializerError` naming the model and the remote id; the
message is the same fixed string whatever the transport error carried,
so the raw error is not propagated, and exactly one fetch is made, so
the fetch is not retried. -/
theorem resolve_translates_fetch_failure (store : Store) (env : ToModelEnv)
    (dfields : List DField) (get_data : String → Except String PyDict)
    (remote_id : String) (refresh save : Bool) (e : String)
    (hattempt : store.byRemoteId remote_id = none ∨ refresh = true)
    (hfail : get_data remote_id = .error e) :
    resolve_remote_id store env dfields get_data remote_id refresh save =
      (.error ("Could not connect to host for remote_id in " ++ env.modelName ++
        " model: " ++ remote_id), 1, []) := by
  unfold resolve_remote_id
  rcases hattempt with h | h
  · simp [h, hfail]
  · simp [h, hfail]

/-- Witness for C8: a failed fetch of an uncached id yields the fixed
translated error and a single fetch attempt. -/
theorem resolve_translates_fetch_failure_witness :
    resolve_remote_id ⟨fun _ => none, fun _ => none⟩
      ⟨"Note", "Note", "Status", "Status", [], false, [], none, ⟨"", []⟩⟩
      [] (fun _ => .error "connection refused") "http://ex/obj/1" false true =
      (.error ("Could not connect to host for remote_id in " ++ "Status" ++
        " model: " ++ "http://ex/obj/1"), 1, []) :=
  resolve_translates_fetch_failure ⟨fun _ => none, fun _ => none⟩
    ⟨"Note", "Note", "Status", "Status", [], false, [], none, ⟨"", []⟩⟩
    [] (fun _ => .error "connection refused") "http://ex/obj/1" false true
    "connection refused" (Or.inl rfl) rfl

/-- C7: when the origin instance named by a deferred reverse-relation
message is absent at resolution time, `set_related_field` fails with an
error and persists nothing: the target item built for the message is
not saved. -/
theorem set_related_field_dangling_origin (store : Store) (env : ToModelEnv)
    (dfields : List DField) (get_data : String → Except String PyDict)
    (data : Sum String PyDict) (related_field_name related_remote_id : String)
    (horigin : store.byRemoteId related_remote_id = none) :
    (set_related_field store env dfields get_data data related_field_name
        related_remote_id).2 = [] ∧
    ∃ msg, (set_related_field store env dfields get_data data
        related_field_name related_remote_id).1 = .error msg := by
  unfold set_related_field
  cases data with
  | inl s =>
    have hw := resolve_save_false_writes store env dfields get_data s false
    cases hres : (resolve_remote_id store env dfields get_data s false false).1 with
    | error e => simp [hres, hw]
    | ok item => simp [hres, hw, horigin]
  | inr d =>
    cases hf : store.findExisting d with
    | some item => simp [hf, horigin]
    | none =>
      cases hc : constructObj dfields d with
      | error e => simp [hf, hc]
      | ok obj =>
        cases hm : to_model env (objAttr obj) none false with
        | error e => simp [hf, hc, hm]
        | ok r =>
          simp [hf, hc, hm, horigin, (to_model_ok_elim _ _ _ _ r hm).2.1]

/-- Witness for C7: a message whose origin id is unknown fails with the
`Invalid related remote id` error and saves no row. -/
theorem set_related_field_dangling_origin_witness :
    (set_related_field ⟨fun _ => none, fun _ => none⟩
      ⟨"Note", "Note", "Status", "Status", [], false, [], none, ⟨"", []⟩⟩
      [] (fun _ => .error "down") (.inr []) "status" "http://l/s/1").2 = [] ∧
    (set_related_field ⟨fun _ => none, fun _ => none⟩
      ⟨"Note", "Note", "Status", "Status", [], false, [], none, ⟨"", []⟩⟩
      [] (fun _ => .error "down") (.inr []) "status" "http://l/s/1").1 =
      .error ("Invalid related remote id: " ++ "http://l/s/1") :=
  ⟨(set_related_field_dangling_origin ⟨fun _ => none, fun _ => none⟩
      ⟨"Note", "Note", "Status", "Status", [], false, [], none, ⟨"", []⟩⟩
      [] (fun _ => .error "down") (.inr []) "status" "http://l/s/1" rfl).1,
   rfl⟩

end BookWyrm
